import Mathlib

/-!
Shallow embedding of the turn-order tracker core of `tracker.py`: the
`TrackerState` class (roster, dead flags, turn cursor, subscriber
registry, the turn-advancement loop `advance_turn`, the dead-toggle
operation `toggle_dead`), plus the sorting step performed by the
`get_characters` input provider.

Modelling conventions:
- Observer notification is modelled by making every mutator also return
  the list of observers whose `refresh()` it invokes, in invocation
  order; `notify_all` is that list (one entry per registered observer,
  in subscription order).
- Python's `IndexError` (the spec's `IndexOutOfRange`) is modelled with
  `Except`; Python list indexing accepts indices in `[-n, n)`, negative
  ones counting from the end, and that normalisation is made explicit
  in `normIndex`.
- Python `%` on a positive modulus is mathematical (non-negative)
  modulo, which is `Int.emod`.
- In the source the loop of `advance_turn` indexes `dead_flags` with a
  candidate below `len(self.characters)`; in every state built by the
  constructor and the mutators the two lists have equal length, and the
  embedding reads the flag with `List.getD _ _ false`.
-/

/-- A roster entry as in the source: a `(name, initiative)` pair. -/
abbrev Character := String × Int

/-- The shared state object `TrackerState` of `tracker.py`, fields as in
`__init__`.  `α` is the type of the observer handles kept in
`subscribers`. -/
structure TrackerState (α : Type) where
  characters : List Character
  dead_flags : List Bool
  turn_index : Int
  subscribers : List α
deriving DecidableEq

variable {α : Type}

/-- Constructor `TrackerState.__init__`: stores `characters` exactly as given (the
constructor performs no sorting), all dead flags `False`, cursor `0`,
empty subscriber registry. -/
def TrackerState.init (characters : List Character) : TrackerState α :=
  { characters := characters
    dead_flags := List.replicate characters.length false
    turn_index := 0
    subscribers := [] }

/-- Operation `subscribe`: appends the view to the registry; no deduplication. -/
def TrackerState.subscribe (s : TrackerState α) (tracker_view : α) : TrackerState α :=
  { s with subscribers := s.subscribers ++ [tracker_view] }

/-- Operation `notify_all`: the sequence of observers whose `refresh()` gets
invoked, in subscription order. -/
def TrackerState.notify_all (s : TrackerState α) : List α :=
  s.subscribers

/-- The scanning loop of `advance_turn`: with `fuel` iterations left and
loop counter `i`, return the first candidate `(c + delta * i) % n` whose
dead flag is unset, or `none` when the fuel runs out.  `advance_turn`
enters it with `fuel = n` and `i = 1`, matching Python's
`for i in range(1, n+1)`. -/
def findNext (flags : List Bool) (c delta : Int) (n : Nat) : Nat → Nat → Option Int
  | 0, _ => none
  | fuel + 1, i =>
    let next_index := (c + delta * (i : Int)) % (n : Int)
    if flags.getD next_index.toNat false = false then some next_index
    else findNext flags c delta n fuel (i + 1)

/-- Operation `advance_turn(delta)`: scan `i = 1..n` for the first living candidate
`(turn_index + delta*i) % n`; move the cursor there when found, leave it
unchanged otherwise; in both cases notify all observers exactly once.
Returns the new state together with the notification events. -/
def TrackerState.advance_turn (s : TrackerState α) (delta : Int) :
    TrackerState α × List α :=
  let n := s.characters.length
  match findNext s.dead_flags s.turn_index delta n n 1 with
  | some idx =>
    let s' := { s with turn_index := idx }
    (s', s'.notify_all)
  | none => (s, s.notify_all)

/-- The failure raised by `toggle_dead` on an index Python rejects
(Python's `IndexError`, the spec's `IndexOutOfRange`). -/
inductive TrackerError where
  | IndexOutOfRange
deriving DecidableEq

/-- Python list-index normalisation for a list of length `n`: an index in
`[0, n)` is used as is, an index in `[-n, 0)` counts from the end, and
anything else raises `IndexError`. -/
def normIndex (n : Nat) (index : Int) : Option Nat :=
  if 0 ≤ index ∧ index < (n : Int) then some index.toNat
  else if -(n : Int) ≤ index ∧ index < 0 then some (index + n).toNat
  else none

/-- Operation `toggle_dead(index)`: flip `dead_flags[index]` (Python indexing); if
the flipped character is now dead and `index == turn_index`, advance the
turn (which notifies), else notify directly. -/
def TrackerState.toggle_dead (s : TrackerState α) (index : Int) :
    Except TrackerError (TrackerState α × List α) :=
  match normIndex s.dead_flags.length index with
  | none => Except.error TrackerError.IndexOutOfRange
  | some i =>
    if index = s.turn_index
        ∧ (s.dead_flags.set i (! s.dead_flags.getD i false)).getD i false = true then
      Except.ok (({ s with
        dead_flags := s.dead_flags.set i (! s.dead_flags.getD i false) }).advance_turn 1)
    else
      Except.ok ({ s with
          dead_flags := s.dead_flags.set i (! s.dead_flags.getD i false) },
        ({ s with
          dead_flags := s.dead_flags.set i (! s.dead_flags.getD i false) }
          : TrackerState α).notify_all)

/-- The comparison the input provider sorts with: `a` may precede `b`
iff `a`'s initiative is at least `b`'s (Python's
`key=lambda x: x[1], reverse=True`). -/
def providerLE (a b : Character) : Bool := decide (b.2 ≤ a.2)

/-- The sorting step of the `get_characters` input provider: Python's
stable `sorted(characters, key=lambda x: x[1], reverse=True)`, i.e. a
stable sort putting higher initiative first. -/
def get_characters_sorted (characters : List Character) : List Character :=
  characters.mergeSort providerLE

/-- The character at roster index `i` (an `Int`, as in the source) is
alive: its dead flag is unset. -/
abbrev TrackerState.aliveAt (s : TrackerState α) (i : Int) : Prop :=
  s.dead_flags.getD i.toNat false = false

/-- Some roster index holds a living character. -/
abbrev TrackerState.someAlive (s : TrackerState α) : Prop :=
  ∃ k : Nat, k < s.dead_flags.length ∧ s.dead_flags.getD k false = false

/-- A character list is sorted by initiative descending. -/
abbrev sortedByInitiativeDesc (l : List Character) : Prop :=
  l.Pairwise (fun a b => b.2 ≤ a.2)

/-- The roster `[A(alive), B(dead), C(alive)]` with cursor 0, the spec's
advance example. -/
def exampleSkip : TrackerState Nat :=
  { characters := [("A", 3), ("B", 2), ("C", 1)]
    dead_flags := [false, true, false]
    turn_index := 0
    subscribers := [] }

/-- The two-character roster after `toggle_dead 1` from the initial
state: B dead, cursor on A. -/
def examplePairBDead : TrackerState Nat :=
  { characters := [("A", 10), ("B", 5)]
    dead_flags := [false, true]
    turn_index := 0
    subscribers := [] }

/-- The two-character roster after additionally killing A: everyone
dead, cursor stuck on the dead A. -/
def examplePairAllDead : TrackerState Nat :=
  { characters := [("A", 10), ("B", 5)]
    dead_flags := [true, true]
    turn_index := 0
    subscribers := [] }

/-- The two-character roster after reviving B from the all-dead state:
B alive, cursor still on the dead A. -/
def examplePairRevived : TrackerState Nat :=
  { characters := [("A", 10), ("B", 5)]
    dead_flags := [true, false]
    turn_index := 0
    subscribers := [] }

/-- The spec's example roster after toggling index 2: B and C dead,
cursor on the living A. -/
def exampleSkipCDead : TrackerState Nat :=
  { characters := [("A", 3), ("B", 2), ("C", 1)]
    dead_flags := [false, true, true]
    turn_index := 0
    subscribers := [] }

/-- All-alive three-character roster with one subscribed observer, the
spec's auto-advance example. -/
def exampleAllAlive : TrackerState Nat :=
  { characters := [("A", 3), ("B", 2), ("C", 1)]
    dead_flags := [false, false, false]
    turn_index := 0
    subscribers := [5] }

/-- The spec's example roster after reviving B: everyone alive, cursor
still 0. -/
def exampleSkipRevived : TrackerState Nat :=
  { characters := [("A", 3), ("B", 2), ("C", 1)]
    dead_flags := [false, false, false]
    turn_index := 0
    subscribers := [] }

theorem providerLE_trans (a b c : Character) :
    providerLE a b = true → providerLE b c = true → providerLE a c = true := by
  simp only [providerLE, decide_eq_true_eq]
  exact fun h1 h2 => le_trans h2 h1

theorem providerLE_total (a b : Character) :
    (providerLE a b || providerLE b a) = true := by
  simp only [providerLE, Bool.or_eq_true, decide_eq_true_eq]
  exact le_total b.2 a.2

/-- C1: refuted as stated.  The engine's constructor does not sort: built
on the unsorted input `[("B", 1), ("A", 2)]`, the stored roster is
exactly the input and is not sorted by initiative descending. -/
theorem C1_counterexample :
    (TrackerState.init [("B", 1), ("A", 2)] : TrackerState Nat).characters
      = [("B", 1), ("A", 2)]
    ∧ ¬ sortedByInitiativeDesc
        (TrackerState.init [("B", 1), ("A", 2)] : TrackerState Nat).characters :=
  ⟨rfl, by decide⟩

/-- C1 (amended): the engine stores its input exactly as provided and
performs no sorting; it is the input provider's sorting step that yields
a roster sorted by initiative descending and stable on ties (for every
initiative value, the entries carrying it keep their relative input
order). -/
theorem C1_engine_stores_input_provider_sorts (characters : List Character) :
    (TrackerState.init characters : TrackerState Nat).characters = characters
    ∧ sortedByInitiativeDesc (get_characters_sorted characters)
    ∧ ∀ v : Int,
        (get_characters_sorted characters).filter (fun a => decide (a.2 = v))
          = characters.filter (fun a => decide (a.2 = v)) := by
  refine ⟨rfl, ?_, ?_⟩
  · have h := List.sorted_mergeSort providerLE_trans providerLE_total characters
    exact h.imp (fun hab => of_decide_eq_true hab)
  · intro v
    have hsub : List.Sublist (characters.filter (fun a => decide (a.2 = v))) characters :=
      List.filter_sublist characters
    have hpw : List.Pairwise (fun a b => providerLE a b = true)
        (characters.filter (fun a => decide (a.2 = v))) := by
      apply List.pairwise_of_forall_mem_list
      intro a ha b hb
      have ha' := (List.mem_filter.mp ha).2
      have hb' := (List.mem_filter.mp hb).2
      simp only [decide_eq_true_eq] at ha' hb'
      simp only [providerLE, decide_eq_true_eq, ha', hb', le_refl]
    have h1 := List.sublist_mergeSort providerLE_trans providerLE_total hpw hsub
    have h2 := h1.filter (fun a => decide (a.2 = v))
    have h3 : (characters.filter (fun a => decide (a.2 = v))).filter
        (fun a => decide (a.2 = v)) = characters.filter (fun a => decide (a.2 = v)) := by
      rw [List.filter_filter]
      simp only [Bool.and_self]
    rw [h3] at h2
    have hperm : List.Perm
        ((get_characters_sorted characters).filter (fun a => decide (a.2 = v)))
        (characters.filter (fun a => decide (a.2 = v))) :=
      (List.mergeSort_perm characters providerLE).filter (fun a => decide (a.2 = v))
    exact (h2.eq_of_length hperm.length_eq.symm).symm

/-- C2: refuted as stated.  On a three-character roster, `toggle_dead(-1)`
does not fail: Python negative indexing makes it toggle the dead flag of
the last entry (and, since `-1` never equals the cursor, it never
auto-advances). -/
theorem C2_counterexample :
    (TrackerState.init [("A", 3), ("B", 2), ("C", 1)] : TrackerState Nat).toggle_dead (-1)
      = Except.ok
          ({ characters := [("A", 3), ("B", 2), ("C", 1)]
             dead_flags := [false, false, true]
             turn_index := 0
             subscribers := [] }, []) := by
  rfl

/-- C2 (amended): `toggle_dead` fails with `IndexOutOfRange`, leaving the
state unchanged, exactly for `index ≥ n` or `index < -n`; in particular
`index = n` fails as the claim states, but `index = -1` does not fail:
on a non-empty roster whose cursor is non-negative it toggles the dead
flag of the last entry and leaves the cursor where it was. -/
theorem C2_toggle_dead_range :
    (∀ (s : TrackerState Nat) (index : Int),
      (index < -(s.dead_flags.length : Int) ∨ (s.dead_flags.length : Int) ≤ index) →
      s.toggle_dead index = Except.error TrackerError.IndexOutOfRange)
    ∧ (∀ (s : TrackerState Nat), 0 < s.dead_flags.length → 0 ≤ s.turn_index →
      s.toggle_dead (-1)
        = Except.ok
            ({ s with dead_flags := (s.dead_flags.set (s.dead_flags.length - 1)
                (! s.dead_flags.getD (s.dead_flags.length - 1) false)) },
             s.subscribers)) := by
  constructor
  · intro s index hout
    have h1 : ¬ (0 ≤ index ∧ index < (s.dead_flags.length : Int)) := by omega
    have h2 : ¬ (-(s.dead_flags.length : Int) ≤ index ∧ index < 0) := by omega
    simp [TrackerState.toggle_dead, normIndex, h1, h2]
  · intro s hn hc
    have hnorm : normIndex s.dead_flags.length (-1) = some (s.dead_flags.length - 1) := by
      simp only [normIndex]
      rw [if_neg (by omega), if_pos (by constructor <;> omega)]
      congr 1
      omega
    have hne : ¬ ((-1 : Int) = s.turn_index ∧
        (s.dead_flags.set (s.dead_flags.length - 1)
          (! s.dead_flags.getD (s.dead_flags.length - 1) false)).getD
          (s.dead_flags.length - 1) false = true) := by
      intro h
      exact absurd h.1 (by omega)
    simp only [TrackerState.toggle_dead, hnorm]
    rw [if_neg hne]
    rfl

/-- Closed instance of the amended C2: on a concrete three-character
roster, `toggle_dead 3` fails with `IndexOutOfRange` while
`toggle_dead (-1)` succeeds and toggles the last entry's flag. -/
theorem C2_toggle_dead_range_witness :
    (TrackerState.init [("A", 3), ("B", 2), ("C", 1)] : TrackerState Nat).toggle_dead 3
      = Except.error TrackerError.IndexOutOfRange
    ∧ (TrackerState.init [("A", 3), ("B", 2), ("C", 1)] : TrackerState Nat).toggle_dead (-1)
      = Except.ok
          ({ (TrackerState.init [("A", 3), ("B", 2), ("C", 1)] : TrackerState Nat) with
              dead_flags := [false, false, false].set 2 (! [false, false, false].getD 2 false) },
           []) :=
  ⟨C2_toggle_dead_range.1 _ 3 (Or.inr (by decide)),
   C2_toggle_dead_range.2 _ (by decide) (by decide)⟩

theorem advance_turn_frame (s : TrackerState α) (delta : Int) :
    (s.advance_turn delta).1.characters = s.characters
    ∧ (s.advance_turn delta).1.dead_flags = s.dead_flags
    ∧ (s.advance_turn delta).1.subscribers = s.subscribers
    ∧ (s.advance_turn delta).2 = s.subscribers := by
  unfold TrackerState.advance_turn
  cases hopt : findNext s.dead_flags s.turn_index delta s.characters.length
      s.characters.length 1 with
  | none => simp [hopt, TrackerState.notify_all]
  | some idx => simp [hopt, TrackerState.notify_all]

/-- Soundness of the scanning loop: a hit is the first living candidate
in the scanned window of loop counters. -/
theorem findNext_some {flags : List Bool} {c delta : Int} {n : Nat} {fuel start : Nat}
    {idx : Int} (h : findNext flags c delta n fuel start = some idx) :
    ∃ i : Nat, start ≤ i ∧ i < start + fuel
      ∧ idx = (c + delta * (i : Int)) % (n : Int)
      ∧ flags.getD idx.toNat false = false
      ∧ ∀ j : Nat, start ≤ j → j < i →
          flags.getD (((c + delta * (j : Int)) % (n : Int)).toNat) false = true := by
  induction fuel generalizing start with
  | zero => simp [findNext] at h
  | succ fuel ih =>
    simp only [findNext] at h
    split at h
    · rename_i hf
      obtain rfl : (c + delta * (start : Int)) % (n : Int) = idx := by
        injection h
      exact ⟨start, Nat.le_refl start, by omega, rfl, hf, fun j h1 h2 => absurd h2 (by omega)⟩
    · rename_i hf
      obtain ⟨i, h1, h2, h3, h4, h5⟩ := ih h
      refine ⟨i, by omega, by omega, h3, h4, ?_⟩
      intro j hj1 hj2
      rcases Nat.eq_or_lt_of_le hj1 with he | hl
      · rw [← he]
        simpa using hf
      · exact h5 j hl hj2

/-- Completeness of the scanning loop: a living candidate in the window
guarantees a hit. -/
theorem findNext_isSome {flags : List Bool} {c delta : Int} {n : Nat} {fuel start : Nat}
    (h : ∃ i : Nat, start ≤ i ∧ i < start + fuel
      ∧ flags.getD (((c + delta * (i : Int)) % (n : Int)).toNat) false = false) :
    (findNext flags c delta n fuel start).isSome = true := by
  induction fuel generalizing start with
  | zero =>
    obtain ⟨i, h1, h2, h3⟩ := h
    omega
  | succ fuel ih =>
    simp only [findNext]
    split
    · rfl
    · rename_i hf
      apply ih
      obtain ⟨i, h1, h2, h3⟩ := h
      refine ⟨i, ?_, by omega, h3⟩
      rcases Nat.eq_or_lt_of_le h1 with he | hl
      · subst he
        exact absurd h3 hf
      · exact hl

/-- When every character is dead, the scanning loop of `advance_turn`
finds nothing. -/
theorem findNext_none_of_all_dead (flags : List Bool) (c delta : Int) {n : Nat}
    (hlen : flags.length = n)
    (hdead : ∀ k : Nat, k < flags.length → flags.getD k false = true) :
    findNext flags c delta n n 1 = none := by
  cases hopt : findNext flags c delta n n 1 with
  | none => rfl
  | some idx =>
    exfalso
    obtain ⟨i, h1, h2, h3, h4, h5⟩ := findNext_some hopt
    have hn : 0 < n := by omega
    have hidx0 : 0 ≤ idx := h3 ▸ Int.emod_nonneg _ (by omega)
    have hidxn : idx < (n : Int) := h3 ▸ Int.emod_lt_of_pos _ (by omega)
    have : flags.getD idx.toNat false = true := hdead idx.toNat (by omega)
    rw [h4] at this
    exact Bool.false_ne_true this

/-- With `delta = ±1` and a cursor in range, every roster index `j` is
reached by a candidate `(c + delta*i) % n` with loop counter `1 ≤ i ≤ n`. -/
theorem candidate_cover {n c j delta : Int} (hc0 : 0 ≤ c) (hcn : c < n)
    (hj0 : 0 ≤ j) (hjn : j < n) (hd : delta = 1 ∨ delta = -1) :
    ∃ i : Nat, 1 ≤ i ∧ (i : Int) ≤ n ∧ (c + delta * (i : Int)) % n = j := by
  have hn : 0 < n := by omega
  have hdd : delta * delta = 1 := by rcases hd with h | h <;> subst h <;> norm_num
  by_cases hk : (delta * (j - c)) % n = 0
  · have hdvd : n ∣ j - c := by
      have h1 : n ∣ delta * (j - c) := Int.dvd_of_emod_eq_zero hk
      rcases hd with h | h <;> subst h
      · simpa using h1
      · rw [Int.dvd_neg.symm]
        simpa using h1
    have hjc : j = c := by
      obtain ⟨t, ht⟩ := hdvd
      have ht0 : t = 0 := by
        by_contra h0
        rcases lt_or_gt_of_ne h0 with h | h
        · have h1 : t ≤ -1 := by omega
          have h2 : n * t ≤ n * (-1) := by
            apply mul_le_mul_of_nonneg_left h1 (by omega)
          rw [mul_neg_one] at h2
          omega
        · have h1 : (1 : Int) ≤ t := by omega
          have h2 : n * 1 ≤ n * t := by
            apply mul_le_mul_of_nonneg_left h1 (by omega)
          rw [mul_one] at h2
          omega
      rw [ht0, mul_zero] at ht
      omega
    refine ⟨n.toNat, by omega, by omega, ?_⟩
    have h1 : ((n.toNat : Int)) = n := by omega
    rw [h1, mul_comm, Int.add_mul_emod_self_left]
    rw [Int.emod_eq_of_lt hc0 hcn, hjc]
  · set k : Int := (delta * (j - c)) % n with hkdef
    have hk0 : 0 ≤ k := Int.emod_nonneg _ (by omega)
    have hkn : k < n := Int.emod_lt_of_pos _ hn
    refine ⟨k.toNat, by omega, by omega, ?_⟩
    have h1 : ((k.toNat : Int)) = k := by omega
    rw [h1]
    have h2 : Int.ModEq n k (delta * (j - c)) := Int.emod_emod_of_dvd _ dvd_rfl
    have h3 : Int.ModEq n (delta * k) (j - c) := by
      have := h2.mul_left delta
      rwa [← mul_assoc, hdd, one_mul] at this
    have h4 : Int.ModEq n (c + delta * k) j := by
      have := h3.add_left c
      rwa [add_sub_cancel] at this
    have h5 : (c + delta * k) % n = j % n := h4
    rw [h5, Int.emod_eq_of_lt hj0 hjn]

/-- With `delta = ±1`, a cursor in range and some character alive,
`advance_turn` moves the cursor to a living in-range index. -/
theorem advance_turn_cursor_alive {s : TrackerState α} {delta : Int}
    (hlen : s.dead_flags.length = s.characters.length)
    (hc0 : 0 ≤ s.turn_index) (hcn : s.turn_index < (s.characters.length : Int))
    (hd : delta = 1 ∨ delta = -1) (ha : s.someAlive) :
    (s.advance_turn delta).1.aliveAt (s.advance_turn delta).1.turn_index
    ∧ 0 ≤ (s.advance_turn delta).1.turn_index
    ∧ (s.advance_turn delta).1.turn_index < (s.characters.length : Int) := by
  obtain ⟨k, hk1, hk2⟩ := ha
  have hn : 0 < s.characters.length := by omega
  obtain ⟨i, hi1, hi2, hi3⟩ :=
    candidate_cover (n := (s.characters.length : Int)) (j := (k : Int))
      hc0 hcn (by omega) (by omega) hd
  have hsome : (findNext s.dead_flags s.turn_index delta
      s.characters.length s.characters.length 1).isSome = true := by
    apply findNext_isSome
    refine ⟨i, hi1, by omega, ?_⟩
    rw [hi3]
    simpa using hk2
  obtain ⟨idx, heq⟩ := Option.isSome_iff_exists.mp hsome
  obtain ⟨i', h1, h2, h3, h4, h5⟩ := findNext_some heq
  have hidx0 : 0 ≤ idx := h3 ▸ Int.emod_nonneg _ (by omega)
  have hidxn : idx < (s.characters.length : Int) := h3 ▸ Int.emod_lt_of_pos _ (by omega)
  simp only [TrackerState.advance_turn, heq]
  exact ⟨h4, hidx0, hidxn⟩

/-- C6: `advance_turn` is a total function that raises nothing; on an
empty roster, and on a roster whose characters are all dead, it returns
the state unchanged (cursor and dead flags intact) and still notifies
every observer exactly once. -/
theorem C6_advance_degenerate_noop :
    (∀ (s : TrackerState Nat) (delta : Int), s.characters.length = 0 →
      s.advance_turn delta = (s, s.subscribers))
    ∧ (∀ (s : TrackerState Nat) (delta : Int),
      s.dead_flags.length = s.characters.length →
      (∀ k : Nat, k < s.dead_flags.length → s.dead_flags.getD k false = true) →
      s.advance_turn delta = (s, s.subscribers)) := by
  constructor
  · intro s delta h
    simp [TrackerState.advance_turn, h, findNext, TrackerState.notify_all]
  · intro s delta hlen hdead
    have hnone := findNext_none_of_all_dead s.dead_flags s.turn_index delta hlen hdead
    simp [TrackerState.advance_turn, hnone, TrackerState.notify_all]

/-- Closed instance of C6: advancing an engine built on the empty roster,
and advancing a two-character roster whose characters are both dead,
both leave the state unchanged and notify the (one) subscribed observer
once. -/
theorem C6_advance_degenerate_noop_witness :
    (TrackerState.init [] : TrackerState Nat).advance_turn 1
      = (TrackerState.init [], [])
    ∧ ({ characters := [("A", 5), ("B", 3)], dead_flags := [true, true],
         turn_index := 0, subscribers := [7] } : TrackerState Nat).advance_turn 1
      = ({ characters := [("A", 5), ("B", 3)], dead_flags := [true, true],
           turn_index := 0, subscribers := [7] }, [7]) :=
  ⟨C6_advance_degenerate_noop.1 _ 1 (by decide),
   C6_advance_degenerate_noop.2 _ 1 (by decide) (by decide)⟩

theorem getD_set_self {l : List Bool} {i : Nat} {a d : Bool} (h : i < l.length) :
    (l.set i a).getD i d = a := by
  rw [List.getD_eq_getElem?_getD, List.getElem?_set_self h]
  rfl

theorem getD_set_ne {l : List Bool} {i j : Nat} {a d : Bool} (h : i ≠ j) :
    (l.set i a).getD j d = l.getD j d := by
  rw [List.getD_eq_getElem?_getD, List.getElem?_set_ne h, ← List.getD_eq_getElem?_getD]

/-- Unfolding of `toggle_dead` at a valid non-negative index, where the
normalised index is `index.toNat`. -/
theorem toggle_dead_valid {s : TrackerState α} {index : Int}
    (h0 : 0 ≤ index) (h1 : index < (s.dead_flags.length : Int)) :
    s.toggle_dead index =
      if index = s.turn_index
          ∧ (s.dead_flags.set index.toNat
              (! s.dead_flags.getD index.toNat false)).getD index.toNat false = true then
        Except.ok (({ s with
          dead_flags := s.dead_flags.set index.toNat
            (! s.dead_flags.getD index.toNat false) }).advance_turn 1)
      else
        Except.ok (({ s with
            dead_flags := s.dead_flags.set index.toNat
              (! s.dead_flags.getD index.toNat false) } : TrackerState α),
          s.subscribers) := by
  have hnorm : normIndex s.dead_flags.length index = some index.toNat := by
    simp only [normIndex]
    rw [if_pos ⟨h0, h1⟩]
  simp only [TrackerState.toggle_dead, hnorm]
  rfl

/-- C3: on a roster with a living character other than the current one,
`advance_turn` with `delta = ±1` moves the cursor to
`(turn_index + delta*i) mod n` for the smallest loop counter `i` in
`1..n` whose candidate index is alive; in particular, on
`[A(alive), B(dead), C(alive)]` with cursor 0 a forward advance lands on
2, and from cursor 2 a forward advance wraps to 0. -/
theorem C3_advance_skips_dead (s : TrackerState Nat) (delta : Int)
    (hc0 : 0 ≤ s.turn_index) (hcn : s.turn_index < (s.characters.length : Int))
    (hd : delta = 1 ∨ delta = -1)
    (ha : ∃ j : Nat, j < s.characters.length ∧ (j : Int) ≠ s.turn_index
      ∧ s.dead_flags.getD j false = false) :
    (∃ i : Nat, 1 ≤ i ∧ i ≤ s.characters.length
      ∧ s.aliveAt ((s.turn_index + delta * (i : Int)) % (s.characters.length : Int))
      ∧ (∀ j : Nat, 1 ≤ j → j < i →
          ¬ s.aliveAt ((s.turn_index + delta * (j : Int)) % (s.characters.length : Int)))
      ∧ (s.advance_turn delta).1.turn_index
          = (s.turn_index + delta * (i : Int)) % (s.characters.length : Int))
    ∧ (exampleSkip.advance_turn 1).1.turn_index = 2
    ∧ (({ exampleSkip with turn_index := 2 }).advance_turn 1).1.turn_index = 0 := by
  refine ⟨?_, by decide, by decide⟩
  obtain ⟨j, hj1, hj2, hj3⟩ := ha
  have hn : 0 < s.characters.length := by omega
  obtain ⟨i0, hi1, hi2, hi3⟩ :=
    candidate_cover (n := (s.characters.length : Int)) (j := (j : Int))
      hc0 hcn (by omega) (by omega) hd
  have hj4 : ((j : Int)).toNat = j := by omega
  have hsome : (findNext s.dead_flags s.turn_index delta
      s.characters.length s.characters.length 1).isSome = true := by
    apply findNext_isSome
    refine ⟨i0, hi1, by omega, ?_⟩
    rw [hi3, hj4]
    exact hj3
  obtain ⟨idx, heq⟩ := Option.isSome_iff_exists.mp hsome
  obtain ⟨i, h1, h2, h3, h4, h5⟩ := findNext_some heq
  refine ⟨i, h1, by omega, ?_, ?_, ?_⟩
  · rw [← h3]
    exact h4
  · intro j' hj'1 hj'2
    have hdead := h5 j' hj'1 hj'2
    intro hcontra
    simp only [TrackerState.aliveAt] at hcontra
    rw [hdead] at hcontra
    cases hcontra
  · simp only [TrackerState.advance_turn, heq]
    exact h3

/-- Closed instance of C3 at the spec's example roster: from cursor 0 a
forward advance skips the dead B and lands on C (index 2), and from
cursor 2 a forward advance wraps back to 0. -/
theorem C3_advance_skips_dead_witness :
    (exampleSkip.advance_turn 1).1.turn_index = 2
    ∧ (({ exampleSkip with turn_index := 2 }).advance_turn 1).1.turn_index = 0 :=
  (C3_advance_skips_dead exampleSkip 1 (by decide) (by decide) (Or.inl rfl)
    ⟨2, by decide, by decide, by decide⟩).2

/-- C4: refuted as stated.  A reachable sequence of completed mutations on
the roster `[A, B]`: kill B, kill A (everyone dead, the auto-advance
finds nobody and the cursor stays on the now-dead A), then revive B.
Afterwards B (index 1) is alive, yet the cursor still references the
dead A (index 0). -/
theorem C4_counterexample :
    (TrackerState.init [("A", 10), ("B", 5)] : TrackerState Nat).toggle_dead 1
      = Except.ok (examplePairBDead, [])
    ∧ examplePairBDead.toggle_dead 0 = Except.ok (examplePairAllDead, [])
    ∧ examplePairAllDead.toggle_dead 1 = Except.ok (examplePairRevived, [])
    ∧ examplePairRevived.dead_flags.getD 1 false = false
    ∧ examplePairRevived.turn_index = 0
    ∧ examplePairRevived.dead_flags.getD 0 false = true :=
  ⟨rfl, rfl, rfl, rfl, rfl, rfl⟩

/-- C4 (amended): after any completed `advance_turn` with `delta = ±1`
the cursor references a living character whenever one exists.  After a
completed `toggle_dead` on a valid index the same holds provided the
invariant held before the call and either some character was alive
before the call or the toggled index is the cursor; in the one remaining
case — every character dead and a non-cursor character revived — the
cursor stays on its dead character, as the counterexample shows. -/
theorem C4_cursor_lands_on_living (s : TrackerState Nat)
    (hlen : s.dead_flags.length = s.characters.length)
    (hc0 : 0 ≤ s.turn_index) (hcn : s.turn_index < (s.characters.length : Int)) :
    (∀ delta : Int, delta = 1 ∨ delta = -1 →
      (s.advance_turn delta).1.someAlive →
      (s.advance_turn delta).1.aliveAt (s.advance_turn delta).1.turn_index)
    ∧ (∀ index : Int, 0 ≤ index → index < (s.characters.length : Int) →
      (s.someAlive → s.aliveAt s.turn_index) →
      (s.someAlive ∨ index = s.turn_index) →
      ∀ (s' : TrackerState Nat) (ev : List Nat),
        s.toggle_dead index = Except.ok (s', ev) →
        s'.someAlive → s'.aliveAt s'.turn_index) := by
  constructor
  · intro delta hd hsa
    have hframe := advance_turn_frame s delta
    have hsa0 : s.someAlive := by
      obtain ⟨k, hk1, hk2⟩ := hsa
      rw [hframe.2.1] at hk1 hk2
      exact ⟨k, hk1, hk2⟩
    exact (advance_turn_cursor_alive hlen hc0 hcn hd hsa0).1
  · intro index h0 h1 hinv hpre s' ev htog
    have h1' : index < (s.dead_flags.length : Int) := by
      rw [hlen]
      exact h1
    rw [toggle_dead_valid h0 h1'] at htog
    by_cases hcond : index = s.turn_index
        ∧ (s.dead_flags.set index.toNat
            (! s.dead_flags.getD index.toNat false)).getD index.toNat false = true
    · rw [if_pos hcond] at htog
      injection htog with htog'
      have hs'1 : s' = (({ s with
          dead_flags := s.dead_flags.set index.toNat
            (! s.dead_flags.getD index.toNat false) } : TrackerState Nat).advance_turn 1).1 := by
        rw [htog']
      intro hsa
      rw [hs'1] at hsa ⊢
      have hlen1 : ({ s with
          dead_flags := s.dead_flags.set index.toNat
            (! s.dead_flags.getD index.toNat false) } : TrackerState Nat).dead_flags.length
          = s.characters.length := by
        simp [List.length_set, hlen]
      have hframe := advance_turn_frame ({ s with
          dead_flags := s.dead_flags.set index.toNat
            (! s.dead_flags.getD index.toNat false) } : TrackerState Nat) 1
      have hsa1 : ({ s with
          dead_flags := s.dead_flags.set index.toNat
            (! s.dead_flags.getD index.toNat false) } : TrackerState Nat).someAlive := by
        obtain ⟨k, hk1, hk2⟩ := hsa
        rw [hframe.2.1] at hk1 hk2
        exact ⟨k, hk1, hk2⟩
      exact (advance_turn_cursor_alive hlen1 hc0 hcn (Or.inl rfl) hsa1).1
    · rw [if_neg hcond] at htog
      injection htog with htog'
      have hs'1 : s' = ({ s with
          dead_flags := s.dead_flags.set index.toNat
            (! s.dead_flags.getD index.toNat false) } : TrackerState Nat) := by
        have := congrArg Prod.fst htog'
        exact this.symm
      intro _
      rw [hs'1]
      by_cases hidx : index = s.turn_index
      · have hne : (s.dead_flags.set index.toNat
            (! s.dead_flags.getD index.toNat false)).getD index.toNat false ≠ true :=
          fun hh => hcond ⟨hidx, hh⟩
        have hbf : (s.dead_flags.set index.toNat
            (! s.dead_flags.getD index.toNat false)).getD index.toNat false = false := by
          cases hval : (s.dead_flags.set index.toNat
              (! s.dead_flags.getD index.toNat false)).getD index.toNat false
          · rfl
          · exact absurd hval hne
        show (s.dead_flags.set index.toNat
            (! s.dead_flags.getD index.toNat false)).getD s.turn_index.toNat false = false
        rw [← hidx]
        exact hbf
      · have hne : index.toNat ≠ s.turn_index.toNat := by omega
        have hsa0 : s.someAlive := by
          rcases hpre with h | h
          · exact h
          · exact absurd h hidx
        have hcur : s.aliveAt s.turn_index := hinv hsa0
        show (s.dead_flags.set index.toNat
            (! s.dead_flags.getD index.toNat false)).getD s.turn_index.toNat false = false
        rw [getD_set_ne hne]
        exact hcur

/-- Closed instance of the amended C4: at the spec's example roster the
forward advance lands on a living character, and toggling the non-cursor
index 2 leaves the cursor on the living A. -/
theorem C4_cursor_lands_on_living_witness :
    (exampleSkip.advance_turn 1).1.aliveAt (exampleSkip.advance_turn 1).1.turn_index
    ∧ exampleSkipCDead.aliveAt 0 := by
  have h := C4_cursor_lands_on_living exampleSkip (by decide) (by decide) (by decide)
  constructor
  · exact h.1 1 (Or.inl rfl) ⟨0, by decide, by decide⟩
  · exact h.2 2 (by decide) (by decide) (fun _ => by decide)
      (Or.inl ⟨0, by decide, by decide⟩) _ [] rfl ⟨0, by decide, by decide⟩

/-- Unfolding of `toggle_dead` when the index normalises to `i`. -/
theorem toggle_dead_eq_of_norm {s : TrackerState α} {index : Int} {i : Nat}
    (hnorm : normIndex s.dead_flags.length index = some i) :
    s.toggle_dead index =
      if index = s.turn_index
          ∧ (s.dead_flags.set i (! s.dead_flags.getD i false)).getD i false = true then
        Except.ok (({ s with
          dead_flags := s.dead_flags.set i (! s.dead_flags.getD i false) }).advance_turn 1)
      else
        Except.ok (({ s with
            dead_flags := s.dead_flags.set i (! s.dead_flags.getD i false) }
            : TrackerState α),
          s.subscribers) := by
  simp only [TrackerState.toggle_dead, hnorm]
  rfl

/-- C5: toggling the cursor's character from alive to dead makes
`toggle_dead` return exactly the result of an immediate forward
`advance_turn` on the flipped state, and the whole call yields exactly
one notification cycle: its event list is the subscriber registry once,
never twice. -/
theorem C5_toggle_current_auto_advances (s : TrackerState Nat) (index : Int)
    (h0 : 0 ≤ index) (h1 : index < (s.dead_flags.length : Int))
    (hcur : index = s.turn_index)
    (halive : s.dead_flags.getD index.toNat false = false) :
    s.toggle_dead index
      = Except.ok (({ s with
          dead_flags := s.dead_flags.set index.toNat true } : TrackerState Nat).advance_turn 1)
    ∧ (({ s with
          dead_flags := s.dead_flags.set index.toNat true } : TrackerState Nat).advance_turn 1).2
      = s.subscribers := by
  have hset : (! s.dead_flags.getD index.toNat false) = true := by
    rw [halive]
    rfl
  have hcond : index = s.turn_index
      ∧ (s.dead_flags.set index.toNat
          (! s.dead_flags.getD index.toNat false)).getD index.toNat false = true := by
    refine ⟨hcur, ?_⟩
    rw [getD_set_self (by omega)]
    exact hset
  constructor
  · rw [toggle_dead_valid h0 h1, if_pos hcond, hset]
  · exact (advance_turn_frame ({ s with
      dead_flags := s.dead_flags.set index.toNat true } : TrackerState Nat) 1).2.2.2

/-- Closed instance of C5 at the all-alive example roster: `toggle_dead 0`
kills A, auto-advances the cursor to 1, and refreshes the one subscribed
observer exactly once. -/
theorem C5_toggle_current_auto_advances_witness :
    exampleAllAlive.toggle_dead 0
      = Except.ok (({ exampleAllAlive with
          dead_flags := exampleAllAlive.dead_flags.set 0 true } : TrackerState Nat).advance_turn 1)
    ∧ (({ exampleAllAlive with
          dead_flags := exampleAllAlive.dead_flags.set 0 true } : TrackerState Nat).advance_turn 1).2
      = [5]
    ∧ (({ exampleAllAlive with
          dead_flags := exampleAllAlive.dead_flags.set 0 true } : TrackerState Nat).advance_turn 1).1.turn_index
      = 1 := by
  have h := C5_toggle_current_auto_advances exampleAllAlive 0
    (by decide) (by decide) (by decide) (by decide)
  exact ⟨h.1, h.2, by decide⟩

/-- C7: a valid `toggle_dead` that does not flip the current character to
dead leaves the cursor unchanged: toggling any character back to alive
(cursor or not), and toggling a non-cursor character dead, keep
`turn_index` exactly as it was. -/
theorem C7_toggle_keeps_cursor (s : TrackerState Nat) (index : Int)
    (h0 : 0 ≤ index) (h1 : index < (s.dead_flags.length : Int))
    (h : s.dead_flags.getD index.toNat false = true ∨ index ≠ s.turn_index) :
    ∃ (s' : TrackerState Nat) (ev : List Nat),
      s.toggle_dead index = Except.ok (s', ev) ∧ s'.turn_index = s.turn_index := by
  rw [toggle_dead_valid h0 h1]
  have hcond : ¬ (index = s.turn_index
      ∧ (s.dead_flags.set index.toNat
          (! s.dead_flags.getD index.toNat false)).getD index.toNat false = true) := by
    rcases h with hflag | hne
    · intro hc
      have hv := hc.2
      rw [getD_set_self (by omega), hflag] at hv
      exact absurd hv (by decide)
    · exact fun hc => hne hc.1
  rw [if_neg hcond]
  exact ⟨_, _, rfl, rfl⟩

/-- Closed instance of C7: reviving the dead B on the spec's example
roster succeeds and leaves the cursor at 0. -/
theorem C7_toggle_keeps_cursor_witness :
    exampleSkip.toggle_dead 1 = Except.ok (exampleSkipRevived, [])
    ∧ exampleSkipRevived.turn_index = exampleSkip.turn_index := by
  obtain ⟨s', ev, h1, h2⟩ :=
    C7_toggle_keeps_cursor exampleSkip 1 (by decide) (by decide) (Or.inl (by decide))
  have h3 : (Except.ok (exampleSkipRevived, ([] : List Nat))
      : Except TrackerError (TrackerState Nat × List Nat)) = Except.ok (s', ev) :=
    (show exampleSkip.toggle_dead 1
        = Except.ok (exampleSkipRevived, ([] : List Nat)) from rfl).symm.trans h1
  injection h3 with h4
  refine ⟨by rw [h1, ← h4], ?_⟩
  rw [show exampleSkipRevived = s' from congrArg Prod.fst h4]
  exact h2

/-- C8: every mutation notifies each registered observer exactly once and
in subscription order — the event list of `advance_turn`, and of any
successful `toggle_dead`, is exactly the subscriber registry — and
`subscribe` appends without deduplication, so an observer subscribed
twice appears twice in every cycle.  Synchrony is captured by the
modelling itself: the events are part of the mutator's own result. -/
theorem C8_observer_fanout :
    (∀ (s : TrackerState Nat) (delta : Int), (s.advance_turn delta).2 = s.subscribers)
    ∧ (∀ (s : TrackerState Nat) (index : Int) (s' : TrackerState Nat) (ev : List Nat),
        s.toggle_dead index = Except.ok (s', ev) → ev = s.subscribers)
    ∧ (∀ (s : TrackerState Nat) (v : Nat),
        (s.subscribe v).subscribers = s.subscribers ++ [v]
        ∧ ((s.subscribe v).subscribe v).subscribers = s.subscribers ++ [v, v]) := by
  refine ⟨?_, ?_, ?_⟩
  · intro s delta
    exact (advance_turn_frame s delta).2.2.2
  · intro s index s' ev h
    cases hnorm : normIndex s.dead_flags.length index with
    | none =>
      simp only [TrackerState.toggle_dead, hnorm] at h
      cases h
    | some i =>
      rw [toggle_dead_eq_of_norm hnorm] at h
      split at h
      · injection h with h'
        have hev : ev = (({ s with
            dead_flags := s.dead_flags.set i (! s.dead_flags.getD i false) }
            : TrackerState Nat).advance_turn 1).2 := (congrArg Prod.snd h').symm
        rw [hev, (advance_turn_frame _ 1).2.2.2]
      · injection h with h'
        exact (congrArg Prod.snd h').symm
  · intro s v
    constructor
    · rfl
    · simp [TrackerState.subscribe]

/-- Closed instance of C8: at the all-alive example roster a forward
advance refreshes the one registered observer exactly once, a
`toggle_dead 2` also refreshes it exactly once, and double subscription
is not deduplicated. -/
theorem C8_observer_fanout_witness :
    (exampleAllAlive.advance_turn 1).2 = [5]
    ∧ ([] : List Nat)
        ++ (exampleAllAlive.subscribers) = [5]
    ∧ ((exampleAllAlive.subscribe 9).subscribe 9).subscribers = [5, 9, 9] := by
  refine ⟨C8_observer_fanout.1 exampleAllAlive 1, by decide, ?_⟩
  have h := (C8_observer_fanout.2.2 exampleAllAlive 9).2
  rw [h]
  rfl

/-- Cursor bounds are established by `advance_turn` for any step: a found
candidate is a non-negative residue below the roster length, and a
fruitless scan leaves the in-range cursor alone. -/
theorem advance_turn_bounds {s : TrackerState α} {delta : Int}
    (h0 : 0 ≤ s.turn_index) (h1 : s.turn_index < (s.characters.length : Int)) :
    0 ≤ (s.advance_turn delta).1.turn_index
    ∧ (s.advance_turn delta).1.turn_index < (s.characters.length : Int) := by
  cases hopt : findNext s.dead_flags s.turn_index delta
      s.characters.length s.characters.length 1 with
  | none =>
    simp only [TrackerState.advance_turn, hopt]
    exact ⟨h0, h1⟩
  | some idx =>
    obtain ⟨i, hh1, hh2, h3, h4, h5⟩ := findNext_some hopt
    have hn : (0 : Int) < (s.characters.length : Int) := by omega
    simp only [TrackerState.advance_turn, hopt]
    constructor
    · rw [h3]
      exact Int.emod_nonneg _ (by omega)
    · rw [h3]
      exact Int.emod_lt_of_pos _ hn

/-- C9: refuted as stated for the empty roster: the engine built on no
characters has cursor 0, and `0 <= cursor < length` is unsatisfiable
there because the length is 0. -/
theorem C9_counterexample :
    (TrackerState.init [] : TrackerState Nat).turn_index = 0
    ∧ ¬ (0 ≤ (TrackerState.init [] : TrackerState Nat).turn_index
        ∧ (TrackerState.init [] : TrackerState Nat).turn_index
            < ((TrackerState.init [] : TrackerState Nat).characters.length : Int)) :=
  ⟨rfl, by decide⟩

/-- C9 (amended): the cursor starts at 0; on a non-empty roster the bound
`0 <= cursor < length` holds at construction and is preserved by
`advance_turn` (any step) and by every successful `toggle_dead`; on the
empty roster the bound is unsatisfiable: the cursor stays 0 because
`advance_turn` leaves it untouched and `toggle_dead` always fails. -/
theorem C9_cursor_bounds :
    (∀ characters : List Character,
      (TrackerState.init characters : TrackerState Nat).turn_index = 0)
    ∧ (∀ (s : TrackerState Nat) (delta : Int),
      0 ≤ s.turn_index → s.turn_index < (s.characters.length : Int) →
      0 ≤ (s.advance_turn delta).1.turn_index
        ∧ (s.advance_turn delta).1.turn_index
            < (((s.advance_turn delta).1.characters.length : Int)))
    ∧ (∀ (s : TrackerState Nat) (index : Int) (s' : TrackerState Nat) (ev : List Nat),
      0 ≤ s.turn_index → s.turn_index < (s.characters.length : Int) →
      s.toggle_dead index = Except.ok (s', ev) →
      0 ≤ s'.turn_index ∧ s'.turn_index < ((s'.characters.length : Int)))
    ∧ (∀ (s : TrackerState Nat) (delta : Int), s.characters.length = 0 →
      (s.advance_turn delta).1.turn_index = s.turn_index)
    ∧ (∀ index : Int, (TrackerState.init [] : TrackerState Nat).toggle_dead index
        = Except.error TrackerError.IndexOutOfRange) := by
  refine ⟨fun characters => rfl, ?_, ?_, ?_, ?_⟩
  · intro s delta h0 h1
    rw [(advance_turn_frame s delta).1]
    exact advance_turn_bounds h0 h1
  · intro s index s' ev h0 h1 htog
    cases hnorm : normIndex s.dead_flags.length index with
    | none =>
      simp only [TrackerState.toggle_dead, hnorm] at htog
      cases htog
    | some i =>
      rw [toggle_dead_eq_of_norm hnorm] at htog
      split at htog
      · injection htog with h'
        have hs' : s' = (({ s with
            dead_flags := s.dead_flags.set i (! s.dead_flags.getD i false) }
            : TrackerState Nat).advance_turn 1).1 := (congrArg Prod.fst h').symm
        rw [hs', (advance_turn_frame ({ s with
            dead_flags := s.dead_flags.set i (! s.dead_flags.getD i false) }
            : TrackerState Nat) 1).1]
        exact advance_turn_bounds (s := ({ s with
            dead_flags := s.dead_flags.set i (! s.dead_flags.getD i false) }
            : TrackerState Nat)) h0 h1
      · injection htog with h'
        have hs' : s' = ({ s with
            dead_flags := s.dead_flags.set i (! s.dead_flags.getD i false) }
            : TrackerState Nat) := (congrArg Prod.fst h').symm
        rw [hs']
        exact ⟨h0, h1⟩
  · intro s delta h
    simp [TrackerState.advance_turn, h, findNext]
  · intro index
    have hnorm : normIndex 0 index = none := by
      simp only [normIndex]
      rw [if_neg (by omega), if_neg (by omega)]
    have hlen : (TrackerState.init [] : TrackerState Nat).dead_flags.length = 0 := rfl
    simp only [TrackerState.toggle_dead, hlen, hnorm]

/-- Closed instance of the amended C9: a singleton engine starts with
cursor 0; at the example roster an advance keeps the cursor in range;
`toggle_dead 0` on the empty engine fails. -/
theorem C9_cursor_bounds_witness :
    (TrackerState.init [("A", 3)] : TrackerState Nat).turn_index = 0
    ∧ (0 ≤ (exampleSkip.advance_turn 1).1.turn_index
        ∧ (exampleSkip.advance_turn 1).1.turn_index
            < (((exampleSkip.advance_turn 1).1.characters.length : Int)))
    ∧ (TrackerState.init [] : TrackerState Nat).toggle_dead 0
        = Except.error TrackerError.IndexOutOfRange :=
  ⟨C9_cursor_bounds.1 [("A", 3)],
   C9_cursor_bounds.2.1 exampleSkip 1 (by decide) (by decide),
   C9_cursor_bounds.2.2.2.2 0⟩

/-- C10: frame conditions: `advance_turn` changes nothing but the cursor
(roster, every dead flag and the subscriber registry are untouched), and
a valid `toggle_dead` changes no roster entry, no subscriber, and no
dead flag other than the one at its index. -/
theorem C10_frame :
    (∀ (s : TrackerState Nat) (delta : Int),
      (s.advance_turn delta).1.characters = s.characters
      ∧ (s.advance_turn delta).1.dead_flags = s.dead_flags
      ∧ (s.advance_turn delta).1.subscribers = s.subscribers)
    ∧ (∀ (s : TrackerState Nat) (index : Int) (s' : TrackerState Nat) (ev : List Nat),
      0 ≤ index → index < (s.dead_flags.length : Int) →
      s.toggle_dead index = Except.ok (s', ev) →
      s'.characters = s.characters
      ∧ s'.subscribers = s.subscribers
      ∧ s'.dead_flags.length = s.dead_flags.length
      ∧ ∀ k : Nat, k ≠ index.toNat →
          s'.dead_flags.getD k false = s.dead_flags.getD k false) := by
  constructor
  · intro s delta
    exact ⟨(advance_turn_frame s delta).1, (advance_turn_frame s delta).2.1,
      (advance_turn_frame s delta).2.2.1⟩
  · intro s index s' ev h0 h1 htog
    rw [toggle_dead_valid h0 h1] at htog
    have key : s'.characters = s.characters ∧ s'.subscribers = s.subscribers
        ∧ s'.dead_flags = s.dead_flags.set index.toNat
            (! s.dead_flags.getD index.toNat false) := by
      split at htog
      · injection htog with h'
        have hs' : s' = (({ s with
            dead_flags := s.dead_flags.set index.toNat
              (! s.dead_flags.getD index.toNat false) } : TrackerState Nat).advance_turn 1).1 :=
          (congrArg Prod.fst h').symm
        have hfr := advance_turn_frame ({ s with
            dead_flags := s.dead_flags.set index.toNat
              (! s.dead_flags.getD index.toNat false) } : TrackerState Nat) 1
        rw [hs']
        exact ⟨hfr.1, hfr.2.2.1, hfr.2.1⟩
      · injection htog with h'
        have hs' : s' = ({ s with
            dead_flags := s.dead_flags.set index.toNat
              (! s.dead_flags.getD index.toNat false) } : TrackerState Nat) :=
          (congrArg Prod.fst h').symm
        rw [hs']
        exact ⟨rfl, rfl, rfl⟩
    refine ⟨key.1, key.2.1, ?_, ?_⟩
    · rw [key.2.2, List.length_set]
    · intro k hk
      rw [key.2.2, getD_set_ne (fun hh => hk hh.symm)]

/-- Closed instance of C10: at the spec's example roster a forward
advance keeps roster, flags and subscribers, and reviving B keeps the
roster and the flag of A. -/
theorem C10_frame_witness :
    (exampleSkip.advance_turn 1).1.characters = exampleSkip.characters
    ∧ exampleSkipRevived.characters = exampleSkip.characters
    ∧ exampleSkipRevived.dead_flags.getD 0 false = exampleSkip.dead_flags.getD 0 false := by
  have h2 := C10_frame.2 exampleSkip 1 exampleSkipRevived [] (by decide) (by decide) rfl
  exact ⟨(C10_frame.1 exampleSkip 1).1, h2.1, h2.2.2.2 0 (by decide)⟩
